import Mathlib

/-!
A shallow embedding of `src/dz01.py`, an in-memory contact book with
validated value types (`Name`, `Phone`, `Birthday`), a `Record` of one
contact, an `AddressBook` keyed by name, the upcoming-birthday query,
and the command layer with its `input_error` decorator.

Python `date` objects are modelled by a `Date` structure of numeric
fields; ordering, day differences and weekdays go through a rata-die
day count (days since 0001-01-01 in the proleptic Gregorian calendar,
the calendar Python's `datetime.date` uses).  Exceptions are modelled
by `Except Err` / `Option`; the system clock read in
`get_upcoming_birthdays` becomes an explicit `today` parameter.
-/

namespace Dz01

/-- Calendar date, mirroring Python `datetime.date` (year 1..9999). -/
structure Date where
  year : Nat
  month : Nat
  day : Nat
  deriving DecidableEq, Repr

/-- Gregorian leap-year test, as in Python's `calendar.isleap`. -/
def isLeap (y : Nat) : Bool :=
  y % 4 = 0 && (y % 100 ≠ 0 || y % 400 = 0)

/-- Number of days of month `m` in year `y`. -/
def daysInMonth (y m : Nat) : Nat :=
  if m = 2 then (if isLeap y then 29 else 28)
  else if m = 4 || m = 6 || m = 9 || m = 11 then 30
  else 31

/-- Validity check performed by the `datetime.date` constructor
(and hence by `date.replace`): year in 1..9999, month in 1..12,
day in 1..days-in-month. -/
def validDate (d : Date) : Bool :=
  1 ≤ d.year && d.year ≤ 9999 &&
  1 ≤ d.month && d.month ≤ 12 &&
  1 ≤ d.day && d.day ≤ daysInMonth d.year d.month

/-- Days in the months strictly before month `m` of year `y`. -/
def daysBeforeMonth (y m : Nat) : Nat :=
  (List.range (m - 1)).foldl (fun acc i => acc + daysInMonth y (i + 1)) 0

/-- Days in the years strictly before year `y`. -/
def daysBeforeYear (y : Nat) : Nat :=
  365 * (y - 1) + (y - 1) / 4 - (y - 1) / 100 + (y - 1) / 400

/-- Rata die: `rataDie ⟨1,1,1⟩ = 1`, increasing by one per day.
This is Python's `date.toordinal()`. -/
def rataDie (d : Date) : Nat :=
  daysBeforeYear d.year + daysBeforeMonth d.year d.month + d.day

/-- Python's `date.weekday()`: Monday = 0, ..., Saturday = 5, Sunday = 6.
0001-01-01 is a Monday. -/
def weekday (d : Date) : Nat :=
  (rataDie d + 6) % 7

/-- Python date comparison `<` (chronological; on the numeric fields it
is lexicographic on (year, month, day)). -/
def dateLt (a b : Date) : Bool :=
  a.year < b.year ||
  (a.year = b.year && (a.month < b.month ||
    (a.month = b.month && a.day < b.day)))

/-- The day after `d` (with month / year rollover). -/
def nextDay (d : Date) : Date :=
  if d.day < daysInMonth d.year d.month then ⟨d.year, d.month, d.day + 1⟩
  else if d.month < 12 then ⟨d.year, d.month + 1, 1⟩
  else ⟨d.year + 1, 1, 1⟩

/-- `d + timedelta(days = n)`. -/
def addDays (d : Date) : Nat → Date
  | 0 => d
  | n + 1 => addDays (nextDay d) n

/-- Python `date.replace(year = y)`: rebuilds the date with the new
year, re-running constructor validation; raises (here: `none`) when
the month/day does not exist in year `y` (e.g. Feb 29 in a non-leap
year) or `y` is out of range. -/
def replaceYear (d : Date) (y : Nat) : Option Date :=
  if validDate ⟨y, d.month, d.day⟩ then some ⟨y, d.month, d.day⟩ else none

/-- Zero-pad a number to 2 digits, as `%d` / `%m` in `strftime`. -/
def pad2 (n : Nat) : String :=
  if n < 10 then "0" ++ toString n else toString n

/-- Zero-pad a number to 4 digits, as `%Y` in `strftime`. -/
def pad4 (n : Nat) : String :=
  if n < 10 then "000" ++ toString n
  else if n < 100 then "00" ++ toString n
  else if n < 1000 then "0" ++ toString n
  else toString n

/-- `date.strftime("%d.%m.%Y")`. -/
def formatDate (d : Date) : String :=
  pad2 d.day ++ "." ++ pad2 d.month ++ "." ++ pad4 d.year

/-- `re.sub(r'\D', '', s)`: keep only the digit characters of `s`. -/
def stripNonDigits (s : String) : String :=
  String.mk (s.data.filter Char.isDigit)

/-- Numeric value of a digit string. -/
def digitsVal (cs : List Char) : Nat :=
  cs.foldl (fun a c => 10 * a + (c.toNat - 48)) 0

/-- The error kinds raised by the program (all Python `ValueError` /
`IndexError` instances, distinguished by their message). -/
inductive Err where
  | invalidName
  | invalidPhone
  | invalidBirthday
  | phoneNotFound
  | argCount
  | dayOutOfRange
  deriving DecidableEq, Repr

/-- The message carried by each error (the text interpolated into
`f"Error: {e}"` by `input_error`). -/
def errMsg : Err → String
  | .invalidName => "Name cannot be empty."
  | .invalidPhone => "Phone number must contain exactly 10 digits."
  | .invalidBirthday => "Invalid date format. Use DD.MM.YYYY"
  | .phoneNotFound => "Old phone number not found."
  | .argCount => "not enough values to unpack"
  | .dayOutOfRange => "day is out of range for month"

/-- `Phone`: value object holding the digit-only number string. -/
structure Phone where
  value : String
  deriving DecidableEq, Repr

/-- `Phone.__init__`: strips every non-digit from the input, then
requires exactly 10 digits. -/
def phoneCreate (number : String) : Except Err Phone :=
  let digits := stripNonDigits number
  if digits.length = 10 then .ok ⟨digits⟩ else .error .invalidPhone

/-- `Birthday`: holds the parsed date and the original text. -/
structure Birthday where
  date : Date
  value : String
  deriving DecidableEq, Repr

/-- Split a character list at every `'.'` (so `"a.b"` gives two
groups, `"."` gives two empty groups, `""` one empty group); this is
how the compiled `strptime` pattern cuts the input at the two literal
dots of `"%d.%m.%Y"`. -/
def splitDots : List Char → List (List Char)
  | [] => [[]]
  | c :: rest =>
    if c = '.' then [] :: splitDots rest
    else
      match splitDots rest with
      | [] => [[c]]
      | g :: gs => (c :: g) :: gs

/-- The day component of `strptime`'s `%d` (regex
`3[0-1]|[1-2]\d|0[1-9]|[1-9]| [1-9]`): one or two digits valued 1..31
(a two-digit form may be zero padded, `00` never matches), or a space
followed by one digit 1..9. -/
def matchDay (cs : List Char) : Option Nat :=
  if cs.all Char.isDigit && (cs.length = 1 || cs.length = 2) &&
      1 ≤ digitsVal cs && digitsVal cs ≤ 31 then
    some (digitsVal cs)
  else
    match cs with
    | [' ', c] => if c.isDigit && '1' ≤ c then some (c.toNat - 48) else none
    | _ => none

/-- The month component of `strptime`'s `%m` (regex
`1[0-2]|0[1-9]|[1-9]`): one or two digits valued 1..12 (`00` never
matches). -/
def matchMonth (cs : List Char) : Option Nat :=
  if cs.all Char.isDigit && (cs.length = 1 || cs.length = 2) &&
      1 ≤ digitsVal cs && digitsVal cs ≤ 12 then
    some (digitsVal cs)
  else none

/-- The year component of `strptime`'s `%Y` (regex `\d\d\d\d`):
exactly four digits. -/
def matchYear (cs : List Char) : Option Nat :=
  if cs.all Char.isDigit && cs.length = 4 then some (digitsVal cs) else none

/-- `datetime.strptime(value, "%d.%m.%Y").date()`: the format compiles
to day, literal dot, month, literal dot, year, anchored at both ends;
on a match the `date` constructor then checks calendar validity. -/
def strptimeDMY (value : String) : Option Date :=
  match splitDots value.data with
  | [ds, ms, ys] =>
    match matchDay ds, matchMonth ms, matchYear ys with
    | some d, some m, some y =>
      if validDate ⟨y, m, d⟩ then some ⟨y, m, d⟩ else none
    | _, _, _ => none
  | _ => none

/-- `Birthday.__init__`: parse with `%d.%m.%Y`; any `ValueError` is
re-raised as the invalid-format error; keeps the original text. -/
def birthdayCreate (value : String) : Except Err Birthday :=
  match strptimeDMY value with
  | some d => .ok ⟨d, value⟩
  | none => .error .invalidBirthday

/-- `Record`: one contact, with the name's text, the phone list in
insertion order, and an optional birthday. -/
structure Record where
  name : String
  phones : List Phone
  birthday : Option Birthday
  deriving DecidableEq, Repr

/-- `Record.__init__` via `Name.__init__`: an empty name raises. -/
def recordCreate (name : String) : Except Err Record :=
  if name = "" then .error .invalidName else .ok ⟨name, [], none⟩

/-- `Record.add_phone`: validate, then append. -/
def addPhone (r : Record) (number : String) : Except Err Record :=
  (phoneCreate number).map fun p => { r with phones := r.phones ++ [p] }

/-- `Record.remove_phone`: keep only the phones whose value differs
from the digit-stripped argument. -/
def removePhone (r : Record) (number : String) : Record :=
  let clean := stripNonDigits number
  { r with phones := r.phones.filter fun p => p.value ≠ clean }

/-- Loop body of `Record.edit_phone`: first phone equal to the cleaned
old number is replaced by `Phone(new_number)` (which may raise); if the
scan falls off the end, `PhoneNotFound` is raised. -/
def editPhoneAux (cleanOld newNumber : String) : List Phone → Except Err (List Phone)
  | [] => .error .phoneNotFound
  | p :: rest =>
    if p.value = cleanOld then (phoneCreate newNumber).map (· :: rest)
    else (editPhoneAux cleanOld newNumber rest).map (p :: ·)

/-- `Record.edit_phone`. -/
def editPhone (r : Record) (oldNumber newNumber : String) : Except Err Record :=
  (editPhoneAux (stripNonDigits oldNumber) newNumber r.phones).map
    fun ps => { r with phones := ps }

/-- `Record.find_phone`: first phone matching the cleaned number. -/
def findPhone (r : Record) (number : String) : Option Phone :=
  let clean := stripNonDigits number
  r.phones.find? fun p => p.value = clean

/-- `Record.add_birthday`: sets / overwrites the birthday. -/
def addBirthdayRec (r : Record) (dateStr : String) : Except Err Record :=
  (birthdayCreate dateStr).map fun b => { r with birthday := some b }

/-- `Record.__str__`. -/
def renderRecord (r : Record) : String :=
  let phones := String.intercalate "; " (r.phones.map (·.value))
  let bday := match r.birthday with
    | some b => ", birthday: " ++ b.value
    | none => ""
  "Contact name: " ++ r.name ++ ", phones: " ++ phones ++ bday

/-- `AddressBook` data: a Python `dict` from name text to record,
modelled as an association list in insertion order of distinct keys. -/
abbrev AddressBook := List (String × Record)

/-- `dict` assignment `data[k] = v`: replace in place when the key is
present (iteration position unchanged), append otherwise. -/
def dictInsert (k : String) (v : Record) : AddressBook → AddressBook
  | [] => [(k, v)]
  | (k', v') :: rest =>
    if k' = k then (k, v) :: rest else (k', v') :: dictInsert k v rest

/-- `AddressBook.add_record`: store under the record's name text. -/
def addRecord (book : AddressBook) (r : Record) : AddressBook :=
  dictInsert r.name r book

/-- `AddressBook.find`: `data.get(name)`. -/
def findRecord (book : AddressBook) (name : String) : Option Record :=
  (book.find? fun kv => kv.1 = name).map (·.2)

/-- `AddressBook.delete`: remove the entry when present, else no-op. -/
def deleteRecord (book : AddressBook) (name : String) : AddressBook :=
  book.filter fun kv => kv.1 ≠ name

/-- One emitted `{"name": ..., "congratulation_date": ...}` entry. -/
structure Entry where
  name : String
  congratulation_date : String
  deriving DecidableEq, Repr

/-- Loop body of `get_upcoming_birthdays` for one record: `none` models
an uncaught `ValueError` from `date.replace` (e.g. a Feb 29 birthday
projected onto a non-leap year); `some []` a record that is skipped
(no birthday, or outside the window); `some [e]` an emitted entry.
The `strftime`/`strptime` round-trip of the stored date on lines 93-94
is the identity on its value and is modelled as such. -/
def upcomingForRecord (today : Date) (r : Record) : Option (List Entry) :=
  match r.birthday with
  | none => some []
  | some b =>
    match replaceYear b.date today.year with
    | none => none
    | some bty =>
      match (if dateLt bty today then replaceYear b.date (today.year + 1)
             else some bty) with
      | none => none
      | some birthdayThisYear =>
        let daysDifference : Int :=
          (rataDie birthdayThisYear : Int) - (rataDie today : Int)
        if 0 ≤ daysDifference ∧ daysDifference ≤ 7 then
          let congratulationDate :=
            if weekday birthdayThisYear = 5 then addDays birthdayThisYear 2
            else if weekday birthdayThisYear = 6 then addDays birthdayThisYear 1
            else birthdayThisYear
          some [⟨r.name, formatDate congratulationDate⟩]
        else some []

/-- `AddressBook.get_upcoming_birthdays`, iterating `data.values()`;
`datetime.today().date()` is the explicit `today` parameter, and an
uncaught `ValueError` is `none`. -/
def getUpcomingBirthdays (book : AddressBook) (today : Date) : Option (List Entry) :=
  match book with
  | [] => some []
  | (_, r) :: rest => do
    let es ← upcomingForRecord today r
    let rest' ← getUpcomingBirthdays rest today
    pure (es ++ rest')

/-- The commands wrapped by `@input_error` and reachable from `main`. -/
inductive Cmd where
  | add
  | change
  | phone
  | all
  | addBirthday
  | showBirthday
  | birthdays
  deriving DecidableEq, Repr

/-- `show_all`'s body: joined renderings, or the empty-book message
when the joined string is falsy. -/
def showAllStr (book : AddressBook) : String :=
  let s := String.intercalate "\n" (book.map fun kv => renderRecord kv.2)
  if s = "" then "Address book is empty." else s

/-- `birthdays`'s body on a successful query result. -/
def birthdaysStr (upcoming : List Entry) : String :=
  if upcoming = [] then "No upcoming birthdays this week."
  else
    ("Upcoming birthdays:\n" ++
      String.join (upcoming.map fun u =>
        u.name ++ " - " ++ u.congratulation_date ++ "\n")).trim

/-- The body of each command function, before the `input_error`
wrapper: the result is the returned string or the raised error, paired
with the book state at that moment (Python records are aliased inside
the dict, so a mutation that happened before a raise is kept; it is
modelled by re-storing the mutated record under its unchanged key).
Argument unpacking (`name, phone, *_ = args`; `args[0]`) raises when
too few (for `change` and `add-birthday`: not exactly as many)
arguments are given. -/
def commandImpl (today : Date) : Cmd → List String → AddressBook →
    Except Err String × AddressBook
  | .add, name :: phone :: _, book =>
    (match findRecord book name with
     | some r =>
       if phone ≠ "" then
         match addPhone r phone with
         | .ok r' => (.ok "Contact updated.", addRecord book r')
         | .error e => (.error e, book)
       else (.ok "Contact updated.", book)
     | none =>
       match recordCreate name with
       | .error e => (.error e, book)
       | .ok r =>
         let book1 := addRecord book r
         if phone ≠ "" then
           match addPhone r phone with
           | .ok r' => (.ok "Contact added.", addRecord book1 r')
           | .error e => (.error e, book1)
         else (.ok "Contact added.", book1))
  | .add, _, book => (.error .argCount, book)
  | .change, [name, old, new], book =>
    (match findRecord book name with
     | none => (.ok "Contact not found.", book)
     | some r =>
       match editPhone r old new with
       | .ok r' => (.ok "Phone number updated.", addRecord book r')
       | .error e => (.error e, book))
  | .change, _, book => (.error .argCount, book)
  | .phone, name :: _, book =>
    (match findRecord book name with
     | some r =>
       (.ok ("Phone numbers for " ++ name ++ ": " ++
         String.intercalate ", " (r.phones.map (·.value))), book)
     | none => (.ok "Contact not found.", book))
  | .phone, [], book => (.error .argCount, book)
  | .all, _, book => (.ok (showAllStr book), book)
  | .addBirthday, [name, dateStr], book =>
    (match findRecord book name with
     | none => (.ok "Contact not found.", book)
     | some r =>
       match addBirthdayRec r dateStr with
       | .ok r' => (.ok "Birthday added.", addRecord book r')
       | .error e => (.error e, book))
  | .addBirthday, _, book => (.error .argCount, book)
  | .showBirthday, name :: _, book =>
    (match findRecord book name with
     | none => (.ok "Contact not found.", book)
     | some r =>
       match r.birthday with
       | none => (.ok "Birthday not set.", book)
       | some b => (.ok (name ++ "'s birthday: " ++ b.value), book))
  | .showBirthday, [], book => (.error .argCount, book)
  | .birthdays, _, book =>
    (match getUpcomingBirthdays book today with
     | none => (.error .dayOutOfRange, book)
     | some upcoming => (.ok (birthdaysStr upcoming), book))

/-- The `input_error` decorator: run the wrapped function; a raised
`KeyError` / `ValueError` / `IndexError` becomes `f"Error: {e}"`. -/
def runCommand (today : Date) (c : Cmd) (args : List String)
    (book : AddressBook) : String × AddressBook :=
  match commandImpl today c args book with
  | (.ok s, b) => (s, b)
  | (.error e, b) => ("Error: " ++ errMsg e, b)

/-! ## Spec-side definitions

Definitions in this section are written from the specification's (or a
claim's) words, to be compared against the embedded code above. -/

inductive DayOfWeek where
  | monday
  | tuesday
  | wednesday
  | thursday
  | friday
  | saturday
  | sunday
  deriving DecidableEq, Repr

/-- Day of the week of a date, anchored at 0001-01-01 (rata die 1)
being a Monday. -/
def dayOfWeek (d : Date) : DayOfWeek :=
  match rataDie d % 7 with
  | 1 => .monday
  | 2 => .tuesday
  | 3 => .wednesday
  | 4 => .thursday
  | 5 => .friday
  | 6 => .saturday
  | _ => .sunday

/-- The anniversary as the claims word it: the birthday's month/day
with today's year, advanced by one year if that date is strictly
before today. -/
def specAnniversary (bd today : Date) : Date :=
  let thisYear : Date := ⟨today.year, bd.month, bd.day⟩
  if dateLt thisYear today then ⟨today.year + 1, bd.month, bd.day⟩
  else thisYear

/-- The congratulation date as the claims word it: the anniversary
shifted forward 2 days when it falls on Saturday, 1 day when it falls
on Sunday, unchanged otherwise. -/
def specCongratulation (a : Date) : Date :=
  match dayOfWeek a with
  | .saturday => addDays a 2
  | .sunday => addDays a 1
  | _ => a

/-- The strict pattern claimed for birthday texts: two-digit day
01..31, literal dot, two-digit month 01..12, literal dot, four-digit
year, naming a valid calendar date. -/
def specMatchesDDMMYYYY (s : String) : Bool :=
  match splitDots s.data with
  | [ds, ms, ys] =>
    ds.all Char.isDigit && ds.length = 2 &&
      1 ≤ digitsVal ds && digitsVal ds ≤ 31 &&
    (ms.all Char.isDigit && ms.length = 2 &&
      1 ≤ digitsVal ms && digitsVal ms ≤ 12) &&
    (ys.all Char.isDigit && ys.length = 4) &&
    validDate ⟨digitsVal ys, digitsVal ms, digitsVal ds⟩
  | _ => false

/-- Amended day field: one or two digits valued 1..31 (so a two-digit
form may be zero padded; `00` and `0` are excluded by the value), or a
space followed by one nonzero digit. -/
def specDayField (cs : List Char) (d : Nat) : Prop :=
  (cs.all Char.isDigit = true ∧ (cs.length = 1 ∨ cs.length = 2) ∧
    1 ≤ d ∧ d ≤ 31 ∧ digitsVal cs = d) ∨
  (∃ c, cs = [' ', c] ∧ c.isDigit = true ∧ '1' ≤ c ∧ c.toNat - 48 = d)

/-- Amended month field: one or two digits valued 1..12. -/
def specMonthField (cs : List Char) (m : Nat) : Prop :=
  cs.all Char.isDigit = true ∧ (cs.length = 1 ∨ cs.length = 2) ∧
    1 ≤ m ∧ m ≤ 12 ∧ digitsVal cs = m

/-- Amended year field: exactly four digits. -/
def specYearField (cs : List Char) (y : Nat) : Prop :=
  cs.all Char.isDigit = true ∧ cs.length = 4 ∧ digitsVal cs = y

/-- All-years record condition for the amended C3: every set birthday
is a valid date that is not February 29. -/
def noLeapDayBirthday : Option Birthday → Bool
  | none => true
  | some b => validDate b.date && !(b.date.month = 2 && b.date.day = 29)

/-! ## Helper lemmas -/

theorem dayOfWeek_eq_saturday_iff (d : Date) :
    dayOfWeek d = DayOfWeek.saturday ↔ weekday d = 5 := by
  unfold dayOfWeek weekday
  have h7 : rataDie d % 7 < 7 := Nat.mod_lt _ (by omega)
  obtain ⟨k, hk⟩ : ∃ k, rataDie d % 7 = k := ⟨_, rfl⟩
  have h6 : (rataDie d + 6) % 7 = (k + 6) % 7 := by omega
  rw [hk, h6]
  rw [hk] at h7
  interval_cases k <;> decide

theorem dayOfWeek_eq_sunday_iff (d : Date) :
    dayOfWeek d = DayOfWeek.sunday ↔ weekday d = 6 := by
  unfold dayOfWeek weekday
  have h7 : rataDie d % 7 < 7 := Nat.mod_lt _ (by omega)
  obtain ⟨k, hk⟩ : ∃ k, rataDie d % 7 = k := ⟨_, rfl⟩
  have h6 : (rataDie d + 6) % 7 = (k + 6) % 7 := by omega
  rw [hk, h6]
  rw [hk] at h7
  interval_cases k <;> decide

theorem findRecord_dictInsert_self (book : AddressBook) (k : String) (v : Record) :
    findRecord (dictInsert k v book) k = some v := by
  induction book with
  | nil => simp [dictInsert, findRecord]
  | cons kv rest ih =>
    obtain ⟨k', v'⟩ := kv
    unfold dictInsert
    by_cases h : k' = k
    · simp [h, findRecord]
    · simpa [h, findRecord, List.find?] using ih

theorem mem_keys_dictInsert (book : AddressBook) (k x : String) (v : Record)
    (hx : x ∈ (dictInsert k v book).map Prod.fst) :
    x = k ∨ x ∈ book.map Prod.fst := by
  induction book with
  | nil => simpa [dictInsert] using hx
  | cons kv rest ih =>
    obtain ⟨k', v'⟩ := kv
    by_cases h : k' = k
    · subst h
      unfold dictInsert at hx
      simp at hx ⊢
      tauto
    · unfold dictInsert at hx
      simp only [if_neg h, List.map_cons, List.mem_cons] at hx ⊢
      tauto

theorem keys_dictInsert_nodup (book : AddressBook) (k : String) (v : Record)
    (h : (book.map Prod.fst).Nodup) :
    ((dictInsert k v book).map Prod.fst).Nodup := by
  induction book with
  | nil => simp [dictInsert]
  | cons kv rest ih =>
    obtain ⟨k', v'⟩ := kv
    simp only [List.map_cons, List.nodup_cons] at h
    unfold dictInsert
    by_cases hk : k' = k
    · subst hk
      simpa [List.nodup_cons] using h
    · simp only [if_neg hk, List.map_cons, List.nodup_cons]
      refine ⟨fun hmem => ?_, ih h.2⟩
      rcases mem_keys_dictInsert rest k k' v hmem with h1 | h1
      · exact hk h1
      · exact h.1 h1

/-! ## Claim C4 -/

/-- C4: Phone construction strips every non-digit character from the
input and fails with `InvalidPhone` exactly when the remaining digit
string's length is not 10; when it is 10, construction succeeds and
the Phone holds the 10-digit string. -/
theorem phone_create_spec (s : String) :
    ((∃ p, phoneCreate s = .ok p) ↔ (stripNonDigits s).length = 10) ∧
    (phoneCreate s = .error .invalidPhone ↔ (stripNonDigits s).length ≠ 10) ∧
    (∀ p, phoneCreate s = .ok p →
      p.value = stripNonDigits s ∧ p.value.length = 10) := by
  unfold phoneCreate
  by_cases h : (stripNonDigits s).length = 10 <;>
    simp only [h, if_pos, if_neg, ite_true, ite_false]
  · refine ⟨by simp [h], by simp [h], ?_⟩
    rintro p hp
    cases hp
    exact ⟨rfl, h⟩
  · refine ⟨by simp [h], by simp [h], ?_⟩
    rintro p hp
    cases hp

/-- Witness for C4 on the spec's own examples: `"12345"` fails,
`"(123) 456-7890"` succeeds and stores `"1234567890"`. -/
theorem phone_create_spec_witness :
    phoneCreate "12345" = .error .invalidPhone ∧
    (Phone.mk "1234567890").value = stripNonDigits "(123) 456-7890" :=
  ⟨(phone_create_spec "12345").2.1.mpr (by decide),
   ((phone_create_spec "(123) 456-7890").2.2 ⟨"1234567890"⟩ rfl).1⟩

/-! ## Claim C7 -/

/-- C7: `remove_phone` removes every phone whose value equals the
digit-stripped text (not just the first), keeps all non-matching
phones in their original relative order (the result is a sublist of
the original list), touches nothing else on the record, and is total
(never fails), including when no phone matches. -/
theorem remove_phone_spec (r : Record) (t : String) :
    (removePhone r t).phones.Sublist r.phones ∧
    (∀ p ∈ (removePhone r t).phones, p.value ≠ stripNonDigits t) ∧
    (∀ p ∈ r.phones, p.value ≠ stripNonDigits t →
      p ∈ (removePhone r t).phones) ∧
    (removePhone r t).name = r.name ∧
    (removePhone r t).birthday = r.birthday := by
  unfold removePhone
  refine ⟨List.filter_sublist _, ?_, ?_, rfl, rfl⟩
  · intro p hp
    have := List.of_mem_filter hp
    simpa using this
  · intro p hp hne
    exact List.mem_filter.mpr ⟨hp, by simpa using hne⟩

/-- Witness for C7: a record with a duplicated phone loses both copies
of it, and the surviving phone is kept. -/
theorem remove_phone_spec_witness :
    (Phone.mk "2222222222") ∈
      (removePhone ⟨"A", [⟨"1111111111"⟩, ⟨"2222222222"⟩, ⟨"1111111111"⟩], none⟩
        "111-111-1111").phones ∧
    (∀ p ∈ (removePhone ⟨"A", [⟨"1111111111"⟩, ⟨"2222222222"⟩, ⟨"1111111111"⟩], none⟩
        "111-111-1111").phones, p.value ≠ stripNonDigits "111-111-1111") :=
  ⟨(remove_phone_spec ⟨"A", [⟨"1111111111"⟩, ⟨"2222222222"⟩, ⟨"1111111111"⟩], none⟩
      "111-111-1111").2.2.1 ⟨"2222222222"⟩ (by decide) (by decide),
   (remove_phone_spec ⟨"A", [⟨"1111111111"⟩, ⟨"2222222222"⟩, ⟨"1111111111"⟩], none⟩
      "111-111-1111").2.1⟩

/-! ## Claim C8 -/

/-- C8: after `add_record`, looking the record's name up returns
exactly the stored record (all fields equal, the previous record under
that key entirely replaced), and keys stay pairwise distinct. -/
theorem add_record_spec (book : AddressBook) (r : Record)
    (h : (book.map Prod.fst).Nodup) :
    findRecord (addRecord book r) r.name = some r ∧
    ((addRecord book r).map Prod.fst).Nodup :=
  ⟨findRecord_dictInsert_self book r.name r,
   keys_dictInsert_nodup book r.name r h⟩

/-- Witness for C8: replacing the stored record for `"Ann"` makes
`find` return the new record, with one key in the book. -/
theorem add_record_spec_witness :
    findRecord (addRecord [("Ann", ⟨"Ann", [⟨"1111111111"⟩], none⟩)]
        ⟨"Ann", [⟨"2222222222"⟩], none⟩) "Ann" =
      some ⟨"Ann", [⟨"2222222222"⟩], none⟩ ∧
    ((addRecord [("Ann", ⟨"Ann", [⟨"1111111111"⟩], none⟩)]
        ⟨"Ann", [⟨"2222222222"⟩], none⟩).map Prod.fst).Nodup :=
  add_record_spec [("Ann", ⟨"Ann", [⟨"1111111111"⟩], none⟩)]
    ⟨"Ann", [⟨"2222222222"⟩], none⟩ (by decide)

theorem except_map_error_iff {α β : Type} (f : α → β) (x : Except Err α) (e : Err) :
    x.map f = .error e ↔ x = .error e := by
  cases x <;> simp [Except.map]

theorem phoneCreate_ne_phoneNotFound (nn : String) :
    phoneCreate nn ≠ .error .phoneNotFound := by
  unfold phoneCreate
  by_cases h : (stripNonDigits nn).length = 10 <;> simp [h]

/-! ## Claim C9 -/

/-- C9: every command function is wrapped by `input_error`, so for
every argument list and book state it returns a result string: a
success message is passed through, and every raised failure (invalid
name/phone/birthday, phone-not-found, argument-count, and the
birthday query's date error) is converted into the string
`"Error: <message>"` at this boundary instead of propagating. -/
theorem input_error_boundary (today : Date) (c : Cmd) (args : List String)
    (book : AddressBook) :
    (∀ s b, commandImpl today c args book = (.ok s, b) →
      runCommand today c args book = (s, b)) ∧
    (∀ e b, commandImpl today c args book = (.error e, b) →
      runCommand today c args book = ("Error: " ++ errMsg e, b)) := by
  constructor
  · intro s b h
    unfold runCommand
    rw [h]
  · intro e b h
    unfold runCommand
    rw [h]

/-- Witness for C9: `add` with a 3-digit phone raises `InvalidPhone`
inside, and the command returns the converted error string. -/
theorem input_error_boundary_witness :
    runCommand ⟨2024, 6, 3⟩ .add ["Alice", "123"] [] =
      ("Error: Phone number must contain exactly 10 digits.",
        [("Alice", ⟨"Alice", [], none⟩)]) :=
  (input_error_boundary ⟨2024, 6, 3⟩ .add ["Alice", "123"] []).2
    .invalidPhone [("Alice", ⟨"Alice", [], none⟩)] rfl

/-! ## Claim C10 -/

/-- C10: `add` on a fresh name with an invalid phone text is not
atomic: it returns an error string, yet the book afterwards contains a
record under that name with an empty phone list and no birthday,
because the record is stored before phone validation runs. -/
theorem add_contact_not_atomic (today : Date) (book : AddressBook)
    (name phoneT : String)
    (h1 : findRecord book name = none) (h2 : name ≠ "") (h3 : phoneT ≠ "")
    (h4 : (stripNonDigits phoneT).length ≠ 10) :
    runCommand today .add [name, phoneT] book =
      ("Error: " ++ errMsg .invalidPhone, addRecord book ⟨name, [], none⟩) ∧
    findRecord (addRecord book ⟨name, [], none⟩) name =
      some ⟨name, [], none⟩ := by
  have hrec : recordCreate name = .ok ⟨name, [], none⟩ := by
    simp [recordCreate, h2]
  have haddp : addPhone ⟨name, [], none⟩ phoneT = .error .invalidPhone := by
    unfold addPhone phoneCreate
    rw [if_neg h4]
    rfl
  have himpl : commandImpl today .add [name, phoneT] book =
      (.error .invalidPhone, addRecord book ⟨name, [], none⟩) := by
    simp only [commandImpl, h1, hrec, haddp, ne_eq, h3, not_false_iff, if_true]
  exact ⟨(input_error_boundary today .add [name, phoneT] book).2 _ _ himpl,
    findRecord_dictInsert_self book name ⟨name, [], none⟩⟩

/-- Witness for C10. -/
theorem add_contact_not_atomic_witness :
    runCommand ⟨2024, 6, 3⟩ .add ["Bob", "123-45"] [] =
      ("Error: " ++ errMsg .invalidPhone, addRecord [] ⟨"Bob", [], none⟩) ∧
    findRecord (addRecord [] ⟨"Bob", [], none⟩) "Bob" =
      some ⟨"Bob", [], none⟩ :=
  add_contact_not_atomic ⟨2024, 6, 3⟩ [] "Bob" "123-45" rfl
    (by decide) (by decide) (by decide)

/-! ## Claim C6 -/

theorem editPhoneAux_not_found_iff (co nn : String) (l : List Phone) :
    editPhoneAux co nn l = .error .phoneNotFound ↔ ∀ p ∈ l, p.value ≠ co := by
  induction l with
  | nil => simp [editPhoneAux]
  | cons p rest ih =>
    unfold editPhoneAux
    by_cases h : p.value = co
    · rw [if_pos h, except_map_error_iff]
      simp [phoneCreate_ne_phoneNotFound, h]
    · rw [if_neg h, except_map_error_iff, ih]
      simp [h]

theorem editPhoneAux_found (co nn : String) (l1 : List Phone) (p0 : Phone)
    (l2 : List Phone) (h1 : ∀ q ∈ l1, q.value ≠ co) (h0 : p0.value = co) :
    editPhoneAux co nn (l1 ++ p0 :: l2) =
      (phoneCreate nn).map fun ph => l1 ++ ph :: l2 := by
  induction l1 with
  | nil =>
    simp only [List.nil_append]
    unfold editPhoneAux
    rw [if_pos h0]
  | cons q l1' ih =>
    have hq : q.value ≠ co := h1 q (by simp)
    simp only [List.cons_append]
    unfold editPhoneAux
    rw [if_neg hq, ih (fun x hx => h1 x (by simp [hx]))]
    cases phoneCreate nn <;> rfl

/-- C6: `edit_phone` fails with `PhoneNotFound` exactly when no phone
in the record equals the digit-stripped old text; when the list splits
as non-matching prefix, first match, suffix, the result replaces only
that first match by a Phone built from the new text (so Phone
validation fires there, and an `InvalidPhone` failure surfaces), all
other entries keeping their values and positions. -/
theorem edit_phone_spec (r : Record) (oldNum newNum : String) :
    (editPhone r oldNum newNum = .error .phoneNotFound ↔
      ∀ p ∈ r.phones, p.value ≠ stripNonDigits oldNum) ∧
    (∀ l1 p0 l2, r.phones = l1 ++ p0 :: l2 →
      (∀ q ∈ l1, q.value ≠ stripNonDigits oldNum) →
      p0.value = stripNonDigits oldNum →
      editPhone r oldNum newNum =
        (phoneCreate newNum).map fun ph => { r with phones := l1 ++ ph :: l2 }) := by
  constructor
  · unfold editPhone
    rw [except_map_error_iff]
    exact editPhoneAux_not_found_iff _ _ _
  · intro l1 p0 l2 hsplit hpre h0
    unfold editPhone
    rw [hsplit, editPhoneAux_found _ _ _ _ _ hpre h0]
    cases phoneCreate newNum <;> rfl

/-- Witness for C6 on the spec's example: phones
`["1111111111","2222222222"]`, old `"111-111-1111"`, new
`"3333333333"` give `["3333333333","2222222222"]`; editing the old
number again fails with `PhoneNotFound`. -/
theorem edit_phone_spec_witness :
    editPhone ⟨"A", [⟨"1111111111"⟩, ⟨"2222222222"⟩], none⟩
        "111-111-1111" "3333333333" =
      .ok ⟨"A", [⟨"3333333333"⟩, ⟨"2222222222"⟩], none⟩ ∧
    editPhone ⟨"A", [⟨"3333333333"⟩, ⟨"2222222222"⟩], none⟩
        "1111111111" "5555555555" =
      .error .phoneNotFound := by
  constructor
  · rw [(edit_phone_spec ⟨"A", [⟨"1111111111"⟩, ⟨"2222222222"⟩], none⟩
        "111-111-1111" "3333333333").2 [] ⟨"1111111111"⟩ [⟨"2222222222"⟩]
        rfl (by simp) (by decide)]
    rfl
  · exact (edit_phone_spec ⟨"A", [⟨"3333333333"⟩, ⟨"2222222222"⟩], none⟩
      "1111111111" "5555555555").1.mpr (by decide)

theorem replaceYear_eq_some (d : Date) (y : Nat) (x : Date)
    (h : replaceYear d y = some x) :
    x = ⟨y, d.month, d.day⟩ ∧ validDate ⟨y, d.month, d.day⟩ = true := by
  unfold replaceYear at h
  by_cases hv : validDate ⟨y, d.month, d.day⟩ = true
  · rw [if_pos hv] at h
    cases h
    exact ⟨rfl, hv⟩
  · rw [if_neg hv] at h
    cases h

theorem codeShift_eq_specCongratulation (a : Date) :
    (if weekday a = 5 then addDays a 2
     else if weekday a = 6 then addDays a 1 else a) = specCongratulation a := by
  unfold specCongratulation
  by_cases h5 : weekday a = 5
  · rw [if_pos h5, (dayOfWeek_eq_saturday_iff a).mpr h5]
  · rw [if_neg h5]
    by_cases h6 : weekday a = 6
    · rw [if_pos h6, (dayOfWeek_eq_sunday_iff a).mpr h6]
    · rw [if_neg h6]
      cases hd : dayOfWeek a
      all_goals first
        | rfl
        | exact absurd ((dayOfWeek_eq_saturday_iff a).mp hd) h5
        | exact absurd ((dayOfWeek_eq_sunday_iff a).mp hd) h6

theorem exists_ite_entry (c : Prop) [Decidable c] (x : Entry) :
    (∃ e, (if c then some [x] else (some [] : Option (List Entry))) = some [e]) ↔ c := by
  by_cases h : c <;> simp [h]

/-! ## Claim C1 -/

/-- C1: a record with a birthday is marked a candidate (one entry is
emitted for it) exactly when the anniversary — the birthday's
month/day with today's year, advanced by one year if that date is
strictly before today — lies between 0 and 7 days after today
inclusive.  The hypotheses state that the two `date.replace` calls the
code can make are constructible (cf. C3 for the leap-day failure). -/
theorem upcoming_candidate_iff (r : Record) (today : Date) (b : Birthday)
    (hb : r.birthday = some b)
    (h1 : validDate ⟨today.year, b.date.month, b.date.day⟩ = true)
    (h2 : dateLt ⟨today.year, b.date.month, b.date.day⟩ today = true →
      validDate ⟨today.year + 1, b.date.month, b.date.day⟩ = true) :
    (∃ e, upcomingForRecord today r = some [e]) ↔
      (0 ≤ (rataDie (specAnniversary b.date today) : Int) - (rataDie today : Int) ∧
       (rataDie (specAnniversary b.date today) : Int) - (rataDie today : Int) ≤ 7) := by
  have hrep1 : replaceYear b.date today.year =
      some ⟨today.year, b.date.month, b.date.day⟩ := by
    unfold replaceYear
    rw [if_pos h1]
  unfold upcomingForRecord specAnniversary
  rw [hb]
  by_cases hlt : dateLt ⟨today.year, b.date.month, b.date.day⟩ today = true
  · have hrep2 : replaceYear b.date (today.year + 1) =
        some ⟨today.year + 1, b.date.month, b.date.day⟩ := by
      unfold replaceYear
      rw [if_pos (h2 hlt)]
    simp only [hrep1, hrep2, hlt, if_true]
    rw [exists_ite_entry]
  · simp only [hrep1, hlt, Bool.false_eq_true, if_false]
    rw [exists_ite_entry]

/-- Witness for C1: with today 03.06.2024, a birthday on 10 June
(anniversary exactly 7 days out) is included and one on 11 June
(8 days out) is excluded. -/
theorem upcoming_candidate_iff_witness :
    (∃ e, upcomingForRecord ⟨2024, 6, 3⟩
      ⟨"Bob", [], some ⟨⟨1990, 6, 10⟩, "10.06.1990"⟩⟩ = some [e]) ∧
    ¬(∃ e, upcomingForRecord ⟨2024, 6, 3⟩
      ⟨"Bob", [], some ⟨⟨1990, 6, 11⟩, "11.06.1990"⟩⟩ = some [e]) :=
  ⟨(upcoming_candidate_iff _ ⟨2024, 6, 3⟩ ⟨⟨1990, 6, 10⟩, "10.06.1990"⟩ rfl
      (by decide) (by decide)).mpr (by decide),
   fun h => absurd ((upcoming_candidate_iff _ ⟨2024, 6, 3⟩
      ⟨⟨1990, 6, 11⟩, "11.06.1990"⟩ rfl (by decide) (by decide)).mp h)
     (by decide)⟩

/-! ## Claim C2 -/

/-- C2: every emitted entry carries the record's name and the
congratulation date: the anniversary shifted forward 2 days when it
falls on Saturday, 1 day when it falls on Sunday, unchanged otherwise,
rendered in DD.MM.YYYY format. -/
theorem upcoming_congratulation_spec (r : Record) (today : Date) (b : Birthday)
    (e : Entry) (hb : r.birthday = some b)
    (he : upcomingForRecord today r = some [e]) :
    e.name = r.name ∧
    e.congratulation_date =
      formatDate (specCongratulation (specAnniversary b.date today)) := by
  cases hrep1 : replaceYear b.date today.year with
  | none =>
    simp only [upcomingForRecord, hb, hrep1] at he
    exact Option.noConfusion he
  | some bty =>
    obtain ⟨hbty, _⟩ := replaceYear_eq_some _ _ _ hrep1
    subst hbty
    by_cases hlt : dateLt ⟨today.year, b.date.month, b.date.day⟩ today = true
    · cases hrep2 : replaceYear b.date (today.year + 1) with
      | none =>
        simp only [upcomingForRecord, hb, hrep1, hrep2, hlt, if_true] at he
        exact Option.noConfusion he
      | some bty2 =>
        obtain ⟨hbty2, _⟩ := replaceYear_eq_some _ _ _ hrep2
        subst hbty2
        simp only [upcomingForRecord, hb, hrep1, hrep2, hlt, if_true] at he
        have hspec : specAnniversary b.date today =
            ⟨today.year + 1, b.date.month, b.date.day⟩ := by
          unfold specAnniversary
          simp [hlt]
        rw [hspec]
        split at he
        · injection he with h
          injection h with h1 h2
          subst h1
          exact ⟨rfl, by rw [codeShift_eq_specCongratulation]⟩
        · injection he with h
          exact List.noConfusion h
    · simp only [upcomingForRecord, hb, hrep1, hlt, Bool.false_eq_true, if_false] at he
      have hspec : specAnniversary b.date today =
          ⟨today.year, b.date.month, b.date.day⟩ := by
        unfold specAnniversary
        simp [hlt]
      rw [hspec]
      split at he
      · injection he with h
        injection h with h1 h2
        subst h1
        exact ⟨rfl, by rw [codeShift_eq_specCongratulation]⟩
      · injection he with h
        exact List.noConfusion h

/-- Witness for C2: birthday 08.06.1990, today 03.06.2024; the
anniversary 08.06.2024 is a Saturday, so the emitted date is the
following Monday, 10.06.2024. -/
theorem upcoming_congratulation_spec_witness :
    (Entry.mk "Bob" "10.06.2024").congratulation_date =
      formatDate (specCongratulation (specAnniversary ⟨1990, 6, 8⟩ ⟨2024, 6, 3⟩)) :=
  (upcoming_congratulation_spec ⟨"Bob", [], some ⟨⟨1990, 6, 8⟩, "08.06.1990"⟩⟩
    ⟨2024, 6, 3⟩ ⟨⟨1990, 6, 8⟩, "08.06.1990"⟩ ⟨"Bob", "10.06.2024"⟩ rfl
    (by decide)).2

/-! ## Claim C3 -/

theorem daysInMonth_ge_28 (y m : Nat) : 28 ≤ daysInMonth y m := by
  unfold daysInMonth
  split
  · split <;> omega
  · split <;> omega

theorem daysInMonth_eq_of_ne_two (y y' m : Nat) (h : m ≠ 2) :
    daysInMonth y m = daysInMonth y' m := by
  unfold daysInMonth
  rw [if_neg h, if_neg h]

theorem validDate_transfer (d : Date) (y : Nat)
    (hv : validDate d = true) (hnf : ¬(d.month = 2 ∧ d.day = 29))
    (h1 : 1 ≤ y) (h2 : y ≤ 9999) :
    validDate ⟨y, d.month, d.day⟩ = true := by
  unfold validDate at hv ⊢
  simp only [Bool.and_eq_true, decide_eq_true_eq] at hv ⊢
  obtain ⟨⟨⟨⟨⟨_, _⟩, hm1⟩, hm2⟩, hd1⟩, hd2⟩ := hv
  refine ⟨⟨⟨⟨⟨h1, h2⟩, hm1⟩, hm2⟩, hd1⟩, ?_⟩
  by_cases hm : d.month = 2
  · have hd29 : d.day ≠ 29 := fun hc => hnf ⟨hm, hc⟩
    unfold daysInMonth at hd2 ⊢
    rw [if_pos hm] at hd2 ⊢
    have h28 : d.day ≤ 28 := by
      cases hL : isLeap d.year <;> rw [hL] at hd2 <;> simp at hd2 <;> omega
    cases hL : isLeap y <;> simp <;> omega
  · rw [daysInMonth_eq_of_ne_two y d.year d.month hm]
    exact hd2

theorem upcomingForRecord_isSome (today : Date) (r : Record)
    (hy1 : 1 ≤ today.year) (hy2 : today.year + 1 ≤ 9999)
    (h : noLeapDayBirthday r.birthday = true) :
    (upcomingForRecord today r).isSome = true := by
  cases hbd : r.birthday with
  | none => simp [upcomingForRecord, hbd]
  | some b =>
    rw [hbd] at h
    unfold noLeapDayBirthday at h
    simp only [Bool.and_eq_true, Bool.not_eq_true', Bool.and_eq_false_iff,
      decide_eq_false_iff_not, decide_eq_true_eq] at h
    obtain ⟨hv, hnf⟩ := h
    have hnf' : ¬(b.date.month = 2 ∧ b.date.day = 29) := by
      rcases hnf with h' | h'
      · exact fun hc => h' hc.1
      · exact fun hc => h' hc.2
    have hval1 : validDate ⟨today.year, b.date.month, b.date.day⟩ = true :=
      validDate_transfer b.date today.year hv hnf' hy1 (by omega)
    have hval2 : validDate ⟨today.year + 1, b.date.month, b.date.day⟩ = true :=
      validDate_transfer b.date (today.year + 1) hv hnf' (by omega) hy2
    have hrep1 : replaceYear b.date today.year =
        some ⟨today.year, b.date.month, b.date.day⟩ := by
      unfold replaceYear
      rw [if_pos hval1]
    have hrep2 : replaceYear b.date (today.year + 1) =
        some ⟨today.year + 1, b.date.month, b.date.day⟩ := by
      unfold replaceYear
      rw [if_pos hval2]
    unfold upcomingForRecord
    rw [hbd]
    by_cases hlt : dateLt ⟨today.year, b.date.month, b.date.day⟩ today = true
    · simp only [hrep1, hrep2, hlt, if_true]
      split <;> rfl
    · simp only [hrep1, hlt, Bool.false_eq_true, if_false]
      split <;> rfl

/-- The original C3 is refuted: a birthday accepted by Birthday
construction (Feb 29 of a leap year) makes the query raise when
projected onto a non-leap year — `date.replace(year=2023)` cannot
build Feb 29, so `get_upcoming_birthdays` fails (`none`). -/
theorem upcoming_birthdays_leap_day_cex :
    birthdayCreate "29.02.2020" = .ok ⟨⟨2020, 2, 29⟩, "29.02.2020"⟩ ∧
    getUpcomingBirthdays
      [("Ann", ⟨"Ann", [], some ⟨⟨2020, 2, 29⟩, "29.02.2020"⟩⟩)]
      ⟨2023, 1, 15⟩ = none :=
  ⟨rfl, rfl⟩

/-- C3 amended: the birthday-window query succeeds for every directory
and every date today (with today's and the following year in the
representable range 1..9999), provided no stored birthday falls on
February 29; every other accepted birthday is constructible in every
year, so no operation in the algorithm can fail. -/
theorem upcoming_birthdays_total (book : AddressBook) (today : Date)
    (hy1 : 1 ≤ today.year) (hy2 : today.year + 1 ≤ 9999)
    (hb : book.all (fun kv => noLeapDayBirthday kv.2.birthday) = true) :
    (getUpcomingBirthdays book today).isSome = true := by
  induction book with
  | nil => rfl
  | cons kv rest ih =>
    simp only [List.all_cons, Bool.and_eq_true] at hb
    have h1 := upcomingForRecord_isSome today kv.2 hy1 hy2 hb.1
    have h2 := ih hb.2
    unfold getUpcomingBirthdays
    obtain ⟨es, hes⟩ := Option.isSome_iff_exists.mp h1
    obtain ⟨rest', hrest'⟩ := Option.isSome_iff_exists.mp h2
    rw [hes]
    simp only [Option.bind_eq_bind, Option.some_bind]
    rw [hrest']
    rfl

/-- Witness for the amended C3: a book whose only birthday is
28.02.1990 queried on 15.01.2023 succeeds. -/
theorem upcoming_birthdays_total_witness :
    (getUpcomingBirthdays
      [("Ann", ⟨"Ann", [], some ⟨⟨1990, 2, 28⟩, "28.02.1990"⟩⟩)]
      ⟨2023, 1, 15⟩).isSome = true :=
  upcoming_birthdays_total
    [("Ann", ⟨"Ann", [], some ⟨⟨1990, 2, 28⟩, "28.02.1990"⟩⟩)]
    ⟨2023, 1, 15⟩ (by decide) (by decide) (by decide)

/-! ## Claim C5 -/

theorem matchDay_eq_some_iff (cs : List Char) (d : Nat) :
    matchDay cs = some d ↔ specDayField cs d := by
  unfold matchDay specDayField
  split
  · rename_i hc
    simp only [Bool.and_eq_true, Bool.or_eq_true, decide_eq_true_eq] at hc
    obtain ⟨⟨⟨hall, hlen⟩, h1⟩, h31⟩ := hc
    constructor
    · intro he
      injection he with he'
      exact Or.inl ⟨hall, hlen, by omega, by omega, he'⟩
    · rintro (⟨_, _, _, _, hdv⟩ | ⟨c, hcs, _, _, _⟩)
      · rw [hdv]
      · rw [hcs] at hall
        simp at hall
  · rename_i hc
    split
    · rename_i ch
      split
      · rename_i hdig
        simp only [Bool.and_eq_true, decide_eq_true_eq] at hdig
        constructor
        · intro he
          injection he with he'
          exact Or.inr ⟨ch, rfl, hdig.1, hdig.2, he'⟩
        · rintro (⟨hall, _, _, _, _⟩ | ⟨c', hcs, _, _, hval⟩)
          · simp at hall
          · have h3 : ch = c' := by simpa using hcs
            rw [h3, hval]
      · rename_i hdig
        constructor
        · intro he
          exact Option.noConfusion he
        · rintro (⟨hall, _, _, _, _⟩ | ⟨c', hcs, hd1, hd2, _⟩)
          · simp at hall
          · have h3 : ch = c' := by simpa using hcs
            subst h3
            exact absurd (by
              simp only [Bool.and_eq_true, decide_eq_true_eq]
              exact ⟨hd1, hd2⟩) hdig
    · rename_i hnm
      constructor
      · intro he
        exact Option.noConfusion he
      · rintro (⟨hall, hlen, h1, h31, hdv⟩ | ⟨c, hcs, _, _, _⟩)
        · exact absurd (by
            simp only [Bool.and_eq_true, Bool.or_eq_true, decide_eq_true_eq]
            exact ⟨⟨⟨hall, hlen⟩, by omega⟩, by omega⟩) hc
        · exact (hnm c hcs).elim

theorem matchMonth_eq_some_iff (cs : List Char) (m : Nat) :
    matchMonth cs = some m ↔ specMonthField cs m := by
  unfold matchMonth specMonthField
  split
  · rename_i hc
    simp only [Bool.and_eq_true, Bool.or_eq_true, decide_eq_true_eq] at hc
    obtain ⟨⟨⟨hall, hlen⟩, h1⟩, h12⟩ := hc
    constructor
    · intro he
      injection he with he'
      exact ⟨hall, hlen, by omega, by omega, he'⟩
    · rintro ⟨_, _, _, _, hdv⟩
      rw [hdv]
  · rename_i hc
    constructor
    · intro he
      exact Option.noConfusion he
    · rintro ⟨hall, hlen, h1, h12, hdv⟩
      exact absurd (by
        simp only [Bool.and_eq_true, Bool.or_eq_true, decide_eq_true_eq]
        exact ⟨⟨⟨hall, hlen⟩, by omega⟩, by omega⟩) hc

theorem matchYear_eq_some_iff (cs : List Char) (y : Nat) :
    matchYear cs = some y ↔ specYearField cs y := by
  unfold matchYear specYearField
  split
  · rename_i hc
    simp only [Bool.and_eq_true, decide_eq_true_eq] at hc
    constructor
    · intro he
      injection he with he'
      exact ⟨hc.1, hc.2, he'⟩
    · rintro ⟨_, _, hdv⟩
      rw [hdv]
  · rename_i hc
    constructor
    · intro he
      exact Option.noConfusion he
    · rintro ⟨hall, hlen, _⟩
      exact absurd (by
        simp only [Bool.and_eq_true, decide_eq_true_eq]
        exact ⟨hall, hlen⟩) hc

theorem strptimeDMY_eq_some_iff (s : String) (d : Date) :
    strptimeDMY s = some d ↔
      validDate d = true ∧
      ∃ ds ms ys, splitDots s.data = [ds, ms, ys] ∧
        specDayField ds d.day ∧ specMonthField ms d.month ∧
        specYearField ys d.year := by
  unfold strptimeDMY
  split
  · rename_i ds ms ys heq
    constructor
    · intro he
      cases hd : matchDay ds with
      | none =>
        rw [hd] at he
        exact Option.noConfusion he
      | some dv =>
        cases hm : matchMonth ms with
        | none =>
          rw [hd, hm] at he
          exact Option.noConfusion he
        | some mv =>
          cases hy : matchYear ys with
          | none =>
            rw [hd, hm, hy] at he
            exact Option.noConfusion he
          | some yv =>
            simp only [hd, hm, hy] at he
            split at he
            · rename_i hvd
              injection he with he'
              subst he'
              exact ⟨hvd, ds, ms, ys, heq,
                (matchDay_eq_some_iff ds dv).mp hd,
                (matchMonth_eq_some_iff ms mv).mp hm,
                (matchYear_eq_some_iff ys yv).mp hy⟩
            · exact Option.noConfusion he
    · rintro ⟨hvd, ds', ms', ys', heq', hdf, hmf, hyf⟩
      rw [heq] at heq'
      injection heq' with e1 rest
      injection rest with e2 rest'
      injection rest' with e3 _
      subst e1
      subst e2
      subst e3
      simp only [(matchDay_eq_some_iff ds d.day).mpr hdf,
        (matchMonth_eq_some_iff ms d.month).mpr hmf,
        (matchYear_eq_some_iff ys d.year).mpr hyf]
      rw [show (⟨d.year, d.month, d.day⟩ : Date) = d from rfl, if_pos hvd]
  · rename_i hnm
    constructor
    · intro he
      exact Option.noConfusion he
    · rintro ⟨_, ds, ms, ys, heq, _⟩
      exact absurd heq (hnm ds ms ys)

/-- The original C5 is refuted on its two-digit-day requirement: the
format accepts a one-digit day, so `"1.01.2024"` is parsed
successfully although it does not match the strict DD.MM.YYYY
pattern. -/
theorem birthday_strict_pattern_cex :
    birthdayCreate "1.01.2024" = .ok ⟨⟨2024, 1, 1⟩, "1.01.2024"⟩ ∧
    specMatchesDDMMYYYY "1.01.2024" = false :=
  ⟨rfl, by decide⟩

/-- C5 amended: Birthday construction succeeds exactly when the text
is three '.'-separated fields where the day is one or two digits
valued 1..31 or a space and one nonzero digit, the month is one or two
digits valued 1..12, the year is exactly four digits, and the
resulting triple names a valid calendar date; on success the Birthday
retains the parsed date and the original text verbatim (two-digit
forms such as `"29.02.2024"` still parse as before; a one-digit day or
month is also accepted, which is the only amendment to the claim). -/
theorem birthday_create_spec_amended (s : String) (b : Birthday) :
    birthdayCreate s = .ok b ↔
      b.value = s ∧ validDate b.date = true ∧
      ∃ ds ms ys, splitDots s.data = [ds, ms, ys] ∧
        specDayField ds b.date.day ∧ specMonthField ms b.date.month ∧
        specYearField ys b.date.year := by
  unfold birthdayCreate
  cases hst : strptimeDMY s with
  | none =>
    constructor
    · intro h
      exact Except.noConfusion h
    · rintro ⟨hval, hvd, hex⟩
      have hsome : strptimeDMY s = some b.date :=
        (strptimeDMY_eq_some_iff s b.date).mpr ⟨hvd, hex⟩
      rw [hst] at hsome
      exact Option.noConfusion hsome
  | some d =>
    have hd := (strptimeDMY_eq_some_iff s d).mp hst
    constructor
    · intro h
      injection h with h'
      subst h'
      exact ⟨rfl, hd.1, hd.2⟩
    · rintro ⟨hval, hvd, hex⟩
      have hsome : strptimeDMY s = some b.date :=
        (strptimeDMY_eq_some_iff s b.date).mpr ⟨hvd, hex⟩
      rw [hst] at hsome
      injection hsome with h'
      obtain ⟨bd, bv⟩ := b
      simp only [] at h' hval
      rw [h', hval]

/-- Witness for the amended C5: `"29.02.2024"` succeeds retaining text
and parsed date; `"31.02.2024"` cannot succeed (invalid calendar
date). -/
theorem birthday_create_spec_amended_witness :
    birthdayCreate "29.02.2024" = .ok ⟨⟨2024, 2, 29⟩, "29.02.2024"⟩ ∧
    ¬ birthdayCreate "31.02.2024" = .ok ⟨⟨2024, 2, 31⟩, "31.02.2024"⟩ :=
  ⟨(birthday_create_spec_amended "29.02.2024" ⟨⟨2024, 2, 29⟩, "29.02.2024"⟩).mpr
      ⟨rfl, by decide,
        ['2', '9'], ['0', '2'], ['2', '0', '2', '4'], by decide,
        Or.inl ⟨by decide, by decide, by decide, by decide, by decide⟩,
        ⟨by decide, by decide, by decide, by decide, by decide⟩,
        ⟨by decide, by decide, by decide⟩⟩,
   fun h =>
    absurd ((birthday_create_spec_amended "31.02.2024"
      ⟨⟨2024, 2, 31⟩, "31.02.2024"⟩).mp h).2.1 (by decide)⟩

end Dz01
